import Mathlib

/-!
Shallow embedding of `migrate_github_repos.py`, a batch GitHub-repository
migration orchestrator, together with proofs of its specified properties.

The embedding models:
* `safe_log_name` — the filename sanitizer (`re.sub(r"[^A-Za-z0-9._-]+", "_", name)`);
* `runStreaming`  — `run_streaming`: launch a child process, stream its merged
  output line by line to the console / an accumulator / an optional per-item
  log file, handle `KeyboardInterrupt` by terminating the child and appending
  an abort marker, and report success iff the exit code is zero;
* `migrateRepos`  — `migrate_repos`: filter CSV rows with a non-blank
  `CURRENT-NAME`, process each row in order with a one-based completion
  counter, collect one report row per processed item, append one error-log
  entry per failed item, and write the summary report only when at least one
  row survived filtering.

External effects (wall clock, the child process, whether the per-item log file
can be opened) are passed in as explicit oracle inputs, so every definition is
an executable function of its inputs.
-/

namespace Migrate

/-- Characters kept by the regex character class `[A-Za-z0-9._-]` used in
`safe_log_name` (`Char.isAlpha`/`Char.isDigit` are exactly ASCII `A-Za-z`/`0-9`). -/
def allowedChar (c : Char) : Bool :=
  c.isAlpha || c.isDigit || c == '.' || c == '_' || c == '-'

/-- A disallowed character, i.e. one matched by `[^A-Za-z0-9._-]`. -/
def badChar (c : Char) : Bool :=
  !allowedChar c

lemma length_dropWhile_le_self (p : α → Bool) (l : List α) :
    (l.dropWhile p).length ≤ l.length := by
  induction l with
  | nil => simp [List.dropWhile]
  | cons a l ih =>
    by_cases h : p a
    · simp only [List.dropWhile_cons, h, if_true]
      exact Nat.le_succ_of_le ih
    · simp [List.dropWhile_cons, h]

/-- `re.sub(r"[^A-Za-z0-9._-]+", "_", name)` over the character list of `name`:
each maximal run of disallowed characters (the `+`) is replaced by a single
underscore, allowed characters are kept. -/
def sanitizeChars : List Char → List Char
  | [] => []
  | c :: cs =>
    if allowedChar c then c :: sanitizeChars cs
    else '_' :: sanitizeChars (cs.dropWhile badChar)
termination_by l => l.length
decreasing_by
  · simp only [List.length_cons]
    exact Nat.lt_succ_self _
  · simp only [List.length_cons]
    exact Nat.lt_succ_of_le (length_dropWhile_le_self _ _)

/-- `safe_log_name` from the source: sanitize a string for use as a filename. -/
def safe_log_name (s : String) : String :=
  ⟨sanitizeChars s.data⟩

lemma sanitizeChars_nil : sanitizeChars [] = [] := by
  simp [sanitizeChars]

lemma sanitizeChars_cons_allowed {c : Char} (h : allowedChar c) (cs : List Char) :
    sanitizeChars (c :: cs) = c :: sanitizeChars cs := by
  rw [sanitizeChars]
  simp [h]

lemma sanitizeChars_cons_bad {c : Char} (h : allowedChar c = false) (cs : List Char) :
    sanitizeChars (c :: cs) = '_' :: sanitizeChars (cs.dropWhile badChar) := by
  rw [sanitizeChars]
  simp [h]

/-- Every character emitted by the sanitizer is in the allowed class. -/
lemma mem_sanitizeChars_allowed :
    ∀ l : List Char, ∀ c ∈ sanitizeChars l, allowedChar c := by
  intro l
  induction l using sanitizeChars.induct with
  | case1 => simp [sanitizeChars_nil]
  | case2 c cs h ih =>
    rw [sanitizeChars_cons_allowed h]
    intro d hd
    rcases List.mem_cons.mp hd with h1 | h1
    · exact h1 ▸ h
    · exact ih d h1
  | case3 c cs h ih =>
    rw [sanitizeChars_cons_bad (by simpa using h)]
    intro d hd
    rcases List.mem_cons.mp hd with h1 | h1
    · subst h1; rfl
    · exact ih d h1

/-- On a list of allowed characters the sanitizer is the identity. -/
lemma sanitizeChars_of_allowed :
    ∀ l : List Char, (∀ c ∈ l, allowedChar c) → sanitizeChars l = l := by
  intro l
  induction l with
  | nil => simp [sanitizeChars_nil]
  | cons c cs ih =>
    intro h
    have hc : allowedChar c := h c (List.mem_cons_self c cs)
    rw [sanitizeChars_cons_allowed hc, ih fun d hd => h d (List.mem_cons_of_mem c hd)]

lemma sanitizeChars_idem (l : List Char) :
    sanitizeChars (sanitizeChars l) = sanitizeChars l :=
  sanitizeChars_of_allowed _ (mem_sanitizeChars_allowed l)

/-- `a` is empty or ends in an allowed character. -/
def endsAllowed (a : List Char) : Prop :=
  a = [] ∨ ∃ a0 c, a = a0 ++ [c] ∧ allowedChar c

/-- `b` is empty or starts with an allowed character. -/
def startsAllowed (b : List Char) : Prop :=
  b = [] ∨ ∃ c b0, b = c :: b0 ∧ allowedChar c

lemma endsAllowed_of_cons {d : Char} {a : List Char} (h : endsAllowed (d :: a)) :
    endsAllowed a := by
  rcases h with h | ⟨a0, c, heq, hc⟩
  · cases h
  · cases a0 with
    | nil =>
      cases heq
      exact Or.inl rfl
    | cons e a1 =>
      rw [List.cons_append] at heq
      cases heq
      exact Or.inr ⟨a1, c, rfl, hc⟩

lemma dropWhile_append_mid {q : Char → Bool} {c : Char} (hc : q c = false)
    (u y : List Char) : (u ++ c :: y).dropWhile q = u.dropWhile q ++ c :: y := by
  induction u with
  | nil => simp [List.dropWhile_cons, hc]
  | cons x u ih =>
    by_cases hx : q x
    · simp [List.dropWhile_cons, hx, ih]
    · simp [List.dropWhile_cons, hx]

lemma dropWhile_append_all {q : Char → Bool} (u y : List Char)
    (hu : ∀ x ∈ u, q x = true) : (u ++ y).dropWhile q = y.dropWhile q := by
  induction u with
  | nil => simp
  | cons x u ih =>
    have hx : q x = true := hu x (List.mem_cons_self x u)
    simp only [List.cons_append, List.dropWhile_cons, hx, if_true]
    exact ih fun d hd => hu d (List.mem_cons_of_mem x hd)

/-- The sanitizer distributes over an append whose left part ends with an
allowed character (so the regex `+` cannot swallow across the boundary). -/
lemma sanitizeChars_append :
    ∀ n (a y : List Char), a.length ≤ n → endsAllowed a →
      sanitizeChars (a ++ y) = sanitizeChars a ++ sanitizeChars y := by
  intro n
  induction n with
  | zero =>
    intro a y hlen _
    have : a = [] := List.eq_nil_of_length_eq_zero (Nat.le_zero.mp hlen)
    subst this
    simp [sanitizeChars_nil]
  | succ n ih =>
    intro a y hlen hend
    cases a with
    | nil => simp [sanitizeChars_nil]
    | cons d a1 =>
      have hlen1 : a1.length ≤ n := Nat.le_of_succ_le_succ hlen
      by_cases hd : allowedChar d
      · rw [List.cons_append, sanitizeChars_cons_allowed hd,
          sanitizeChars_cons_allowed hd,
          ih a1 y hlen1 (endsAllowed_of_cons hend), List.cons_append]
      · -- `d` is disallowed, so the list cannot be a single allowed character:
        -- its allowed last character sits inside `a1`.
        rcases hend with h | ⟨a0, c, heq, hc⟩
        · cases h
        · cases a0 with
          | nil =>
            cases heq
            exact absurd hc hd
          | cons e a2 =>
            rw [List.cons_append] at heq
            cases heq
            have hdf : allowedChar d = false := by
              simpa using hd
            have hqc : badChar c = false := by
              simp [badChar, hc]
            rw [List.cons_append, sanitizeChars_cons_bad hdf,
              sanitizeChars_cons_bad hdf]
            rw [List.append_assoc, List.singleton_append,
              dropWhile_append_mid hqc a2 y,
              dropWhile_append_mid hqc a2 []]
            have hlen2 : ((a2.dropWhile badChar) ++ [c]).length ≤ n := by
              have h1 : (a2.dropWhile badChar).length ≤ a2.length :=
                length_dropWhile_le_self _ _
              have h2 : a2.length + 1 ≤ n := by
                simpa [List.length_append] using hlen1
              simpa [List.length_append] using
                Nat.le_trans (Nat.succ_le_succ h1) h2
            have hend2 : endsAllowed (a2.dropWhile badChar ++ [c]) :=
              Or.inr ⟨a2.dropWhile badChar, c, rfl, hc⟩
            have := ih (a2.dropWhile badChar ++ [c]) y hlen2 hend2
            rw [List.append_assoc, List.singleton_append] at this
            rw [this, List.cons_append]

/-- A maximal disallowed run at the head of the list becomes one underscore. -/
lemma sanitizeChars_bad_run (r b : List Char) (hr : r ≠ [])
    (hbad : ∀ c ∈ r, allowedChar c = false) (hb : startsAllowed b) :
    sanitizeChars (r ++ b) = '_' :: sanitizeChars b := by
  cases r with
  | nil => cases hr rfl
  | cons d r1 =>
    have hd : allowedChar d = false := hbad d (List.mem_cons_self d r1)
    rw [List.cons_append, sanitizeChars_cons_bad hd]
    have h1 : (r1 ++ b).dropWhile badChar = b.dropWhile badChar :=
      dropWhile_append_all r1 b fun x hx => by
        simp [badChar, hbad x (List.mem_cons_of_mem d hx)]
    have h2 : b.dropWhile badChar = b := by
      rcases hb with h | ⟨c, b0, heq, hc⟩
      · simp [h]
      · subst heq
        simp [List.dropWhile_cons, badChar, hc]
    rw [h1, h2]

/-- C5: every character of `safe_log_name x` lies in {letters, digits, `.`,
`-`, `_`}, and every maximal run of consecutive disallowed characters of the
input (a nonempty all-disallowed block whose left context ends allowed and
whose right context starts allowed) is replaced by a single underscore. -/
theorem safe_log_name_charset_and_collapse :
    (∀ x : String, ∀ c ∈ (safe_log_name x).data, allowedChar c) ∧
    (∀ (x : String) (a r b : List Char), x.data = a ++ r ++ b → r ≠ [] →
      (∀ c ∈ r, allowedChar c = false) → endsAllowed a → startsAllowed b →
      (safe_log_name x).data = sanitizeChars a ++ '_' :: sanitizeChars b) := by
  constructor
  · intro x
    exact mem_sanitizeChars_allowed x.data
  · intro x a r b hx hr hbad ha hb
    show sanitizeChars x.data = _
    rw [hx, List.append_assoc,
      sanitizeChars_append a.length a (r ++ b) (Nat.le_refl _) ha,
      sanitizeChars_bad_run r b hr hbad hb]

/-- Witness for C5 at concrete inputs: `"My Repo/v2!"` sanitizes into the
allowed character class, and the two-character disallowed run in `"a!?b"`
collapses to a single underscore. -/
theorem safe_log_name_charset_and_collapse_witness :
    (∀ c ∈ (safe_log_name "My Repo/v2!").data, allowedChar c) ∧
    (safe_log_name "a!?b").data = ['a', '_', 'b'] := by
  constructor
  · exact safe_log_name_charset_and_collapse.1 "My Repo/v2!"
  · have h := safe_log_name_charset_and_collapse.2 "a!?b" ['a'] ['!', '?'] ['b']
      (by decide) (by decide) (by decide)
      (Or.inr ⟨[], 'a', rfl, by decide⟩) (Or.inr ⟨'b', [], rfl, by decide⟩)
    rw [h]
    simp +decide [sanitizeChars]

/-- C6: `safe_log_name` is idempotent. -/
theorem safe_log_name_idempotent (s : String) :
    safe_log_name (safe_log_name s) = safe_log_name s :=
  congrArg String.mk (sanitizeChars_idem s.data)

/-! ### Process runner (`run_streaming`) -/

/-- Observable behaviour of one child-process invocation, as seen by the
read loop of `run_streaming`: the raw lines the parent read from the merged
stdout/stderr stream, and whether the loop ended by stream EOF plus
`proc.wait()` (`finished`, with the exit code) or by a `KeyboardInterrupt`
arriving during the loop (`interrupted`). -/
inductive ProcResult where
  | finished (rawLines : List String) (exitCode : Int)
  | interrupted (rawLines : List String)
deriving DecidableEq

/-- The raw lines read from the stream before the loop ended. -/
def ProcResult.rawLines : ProcResult → List String
  | .finished ls _ => ls
  | .interrupted ls => ls

/-- `line.rstrip("\n")`: remove all trailing newline characters. -/
def rstripNewlines (s : String) : String :=
  ⟨((s.data.reverse.dropWhile fun c => c == '\n').reverse)⟩

/-- The literal abort marker appended on `KeyboardInterrupt`. -/
def abortMarker : String := "\n[ABORTED] Interrupted by user.\n"

/-- Result of `run_streaming`: the returned pair `(success, combined_output)`
together with the observable side effects — the accumulated `output_lines`,
the sequence of strings written to the per-item log (`none` when the log file
could not be opened), whether the could-not-open warning was printed, and the
lines echoed to the console. -/
structure StreamResult where
  success : Bool
  outputLines : List String
  output : String
  logWrites : Option (List String)
  warnedLogOpen : Bool
  echoed : List String
deriving DecidableEq

/-- `run_streaming cmd live_prefix log_path env` with a log path always
supplied (as `migrate_repos` does). `logOpens` says whether `open(log_path)`
succeeded; `pr` is the child process's observable behaviour. Each raw line is
rstripped of newlines, echoed with the caller's prefix, appended to the
accumulator as `line + "\n"`, and mirrored to the log when it is open; on
interrupt the child is terminated, the abort marker is appended to both the
accumulator and the log, and `success` is `false`; otherwise `success` is
`proc.returncode == 0`. -/
def runStreaming (pfx : String) (logOpens : Bool) (pr : ProcResult) : StreamResult :=
  let linesOut := pr.rawLines.map fun l => rstripNewlines l ++ "\n"
  let echoed := pr.rawLines.map fun l => pfx ++ rstripNewlines l
  match pr with
  | .finished _ ec =>
    { success := ec == 0
      outputLines := linesOut
      output := String.join linesOut
      logWrites := if logOpens then some linesOut else none
      warnedLogOpen := !logOpens
      echoed := echoed }
  | .interrupted _ =>
    { success := false
      outputLines := linesOut ++ [abortMarker]
      output := String.join (linesOut ++ [abortMarker])
      logWrites := if logOpens then some (linesOut ++ [abortMarker]) else none
      warnedLogOpen := !logOpens
      echoed := echoed }

/-- C9: when the per-item log file opens successfully, the sequence of writes
to the log is exactly the accumulated `output_lines` (each streamed line, and
on cancellation the abort marker, goes identically to both), so the log's
final content equals the returned captured output. -/
theorem log_content_equals_captured_output (pfx : String) (pr : ProcResult) :
    (runStreaming pfx true pr).logWrites = some (runStreaming pfx true pr).outputLines ∧
    String.join (runStreaming pfx true pr).outputLines = (runStreaming pfx true pr).output := by
  cases pr <;> simp [runStreaming]

/-! ### Orchestrator (`migrate_repos`) -/

/-- Python whitespace stripped by `str.strip()` (ASCII part). -/
def pyIsSpace (c : Char) : Bool :=
  c == ' ' || c == '\t' || c == '\n' || c == '\r' || c == '\x0b' || c == '\x0c'

/-- Python `s.strip()`: drop whitespace from both ends. -/
def pyStrip (s : String) : String :=
  ⟨((s.data.dropWhile pyIsSpace).reverse.dropWhile pyIsSpace).reverse⟩

/-- One row of the parsed CSV (`csv.DictReader` row); `none` models a missing
column, so `row.get("CURRENT-NAME") or ""` is `currentName.getD ""`. -/
structure CsvRow where
  currentName : Option String
  newName : Option String
deriving DecidableEq

/-- The environment-derived configuration (`SOURCE`, `DESTINATION`,
`TARGET_API_URL`), validated non-empty before the run starts. -/
structure Config where
  sourceOrg : String
  destinationOrg : String
  targetApiUrl : String
deriving DecidableEq

/-- `LOGS_DIR` -/
def logsDirName : String := "logs"

/-- The wall-clock observations of one loop iteration, already in the textual
form the code derives from them: `start_time.strftime(...)`,
`end_time.strftime(...)`, `str(round(duration_seconds, 2))` and
`str(round(duration_seconds / 60, 2))`. -/
structure ItemTiming where
  startTimeStr : String
  endTimeStr : String
  durSecondsStr : String
  durMinutesStr : String
deriving DecidableEq

/-- External behaviour for one loop iteration: the child process's observable
run, whether the per-item log file could be opened, and the clock readings. -/
structure ItemEnv where
  proc : ProcResult
  logOpens : Bool
  timing : ItemTiming
deriving DecidableEq

/-- One `logging.error("Migration failed for %s -> %s\n%s", ...)` record. -/
structure ErrEntry where
  sourceRepo : String
  targetRepo : String
  capturedOutput : String
deriving DecidableEq

/-- One row appended to `results` and later written to the summary CSV. -/
structure ReportRow where
  sourceOrg : String
  sourceRepo : String
  targetOrg : String
  targetRepo : String
  status : String
  startTime : String
  endTime : String
  timeTakenSeconds : String
  timeTakenMinutes : String
  logFile : String
deriving DecidableEq

/-- Everything one iteration of the `for row in repo_list` loop produces:
the stripped names, the streaming result, the one-line progress summary, the
error-log entries appended (zero or one), and the report row. -/
structure ItemResult where
  sourceRepo : String
  targetRepo : String
  stream : StreamResult
  progressLine : String
  errEntries : List ErrEntry
  reportRow : ReportRow
deriving DecidableEq

/-- The body of the `for row in repo_list` loop, for the iteration whose
post-increment counter value is `completedAfter` (`completed += 1` happens
before the progress line is printed). -/
def processItem (cfg : Config) (e : ItemEnv) (completedAfter total : Nat)
    (row : CsvRow) : ItemResult :=
  let source_repo := pyStrip (row.currentName.getD "")
  let target0 := pyStrip (row.newName.getD "")
  let target_repo := if target0 = "" then source_repo else target0
  let per_repo_log := logsDirName ++ "/" ++ safe_log_name source_repo ++
    "__to__" ++ safe_log_name target_repo ++ ".log"
  let pfx := "[" ++ source_repo ++ " -> " ++ target_repo ++ "] "
  let st := runStreaming pfx e.logOpens e.proc
  let status_msg := if st.success then "Completed" else "Failed"
  { sourceRepo := source_repo
    targetRepo := target_repo
    stream := st
    progressLine := "[" ++ status_msg ++ "] " ++ source_repo ++ " -> " ++
      target_repo ++ " (" ++ toString completedAfter ++ "/" ++ toString total ++
      ") in " ++ e.timing.durSecondsStr ++ "s"
    errEntries := if st.success then [] else [⟨source_repo, target_repo, st.output⟩]
    reportRow := {
      sourceOrg := cfg.sourceOrg
      sourceRepo := source_repo
      targetOrg := cfg.destinationOrg
      targetRepo := target_repo
      status := if st.success then "Success" else "Failed"
      startTime := e.timing.startTimeStr
      endTime := e.timing.endTimeStr
      timeTakenSeconds := e.timing.durSecondsStr
      timeTakenMinutes := e.timing.durMinutesStr
      logFile := per_repo_log } }

/-- `repo_list = [row for row in reader if (row.get("CURRENT-NAME") or "").strip()]` -/
def filteredRows (rows : List CsvRow) : List CsvRow :=
  rows.filter fun r => pyStrip (r.currentName.getD "") != ""

/-- The loop itself: items are processed strictly in order, one at a time,
threading the `completed` counter; `env k` is the external behaviour of the
iteration with zero-based index `k`. -/
def runItems (cfg : Config) (env : Nat → ItemEnv) (total : Nat) :
    Nat → List CsvRow → List ItemResult
  | _, [] => []
  | k, row :: rest =>
    processItem cfg (env k) (k + 1) total row ::
      runItems cfg env total (k + 1) rest

/-- The observable result of one `migrate_repos` call: whether the
"No repositories found" message was printed, the summary CSV content (`none`
when the function returned before writing it), the per-item results, and the
final completed/total counters. -/
structure RunResult where
  infoNoRepos : Bool
  report : Option (List ReportRow)
  items : List ItemResult
  completed : Nat
  total : Nat

/-- `migrate_repos(csv_file)`: filter the rows, return early (writing
nothing) when none survive, otherwise process every row in order and write
one summary row per processed item. -/
def migrateRepos (cfg : Config) (env : Nat → ItemEnv) (rows : List CsvRow) :
    RunResult :=
  let repo_list := filteredRows rows
  let total := repo_list.length
  if total = 0 then
    { infoNoRepos := true, report := none, items := [], completed := 0, total := 0 }
  else
    let items := runItems cfg env total 0 repo_list
    { infoNoRepos := false
      report := some (items.map fun it => it.reportRow)
      items := items
      completed := total
      total := total }

/-- The rows of the written summary CSV (empty when no file was written). -/
def reportRows (cfg : Config) (env : Nat → ItemEnv) (rows : List CsvRow) :
    List ReportRow :=
  ((migrateRepos cfg env rows).report).getD []

/-- The process-wide error log accumulated over the run, in append order. -/
def errorLog (rr : RunResult) : List ErrEntry :=
  (rr.items.map fun it => it.errEntries).flatten

lemma runItems_length (cfg : Config) (env : Nat → ItemEnv) (total : Nat) :
    ∀ (l : List CsvRow) (k : Nat), (runItems cfg env total k l).length = l.length := by
  intro l
  induction l with
  | nil => intro k; simp [runItems]
  | cons row rest ih => intro k; simp [runItems, ih]

lemma runItems_get (cfg : Config) (env : Nat → ItemEnv) (total : Nat) :
    ∀ (l : List CsvRow) (k i : Nat) (h : i < l.length)
      (h2 : i < (runItems cfg env total k l).length),
      (runItems cfg env total k l).get ⟨i, h2⟩
        = processItem cfg (env (k + i)) (k + i + 1) total (l.get ⟨i, h⟩) := by
  intro l
  induction l with
  | nil => intro k i h h2; cases h
  | cons row rest ih =>
    intro k i h h2
    cases i with
    | zero => simp [runItems]
    | succ j =>
      have h1 : j < rest.length := Nat.lt_of_succ_lt_succ h
      have h3 : j < (runItems cfg env total (k + 1) rest).length := by
        rw [runItems_length]; exact h1
      have step : (runItems cfg env total k (row :: rest)).get ⟨j + 1, h2⟩
          = (runItems cfg env total (k + 1) rest).get ⟨j, h3⟩ := by
        simp [runItems]
      rw [step, ih (k + 1) j h1 h3]
      have e1 : k + 1 + j = k + (j + 1) := by omega
      rw [e1]
      simp

/-- Placeholder CSV row used only as the `List.getD` default. -/
def dummyRow : CsvRow := ⟨none, none⟩

/-- Placeholder report row used only as the `List.getD` default. -/
def dummyReportRow : ReportRow := ⟨"", "", "", "", "", "", "", "", "", ""⟩

/-- Placeholder item result used only as the `List.getD` default. -/
def dummyItem : ItemResult :=
  { sourceRepo := ""
    targetRepo := ""
    stream := ⟨false, [], "", none, false, []⟩
    progressLine := ""
    errEntries := []
    reportRow := dummyReportRow }

lemma migrateRepos_items_length (cfg : Config) (env : Nat → ItemEnv)
    (rows : List CsvRow) :
    (migrateRepos cfg env rows).items.length = (filteredRows rows).length := by
  by_cases h : (filteredRows rows).length = 0
  · simp [migrateRepos, h]
  · simp [migrateRepos, h, runItems_length]

lemma reportRows_length (cfg : Config) (env : Nat → ItemEnv) (rows : List CsvRow) :
    (reportRows cfg env rows).length = (filteredRows rows).length := by
  by_cases h : (filteredRows rows).length = 0
  · simp [reportRows, migrateRepos, h]
  · simp [reportRows, migrateRepos, h, runItems_length]

lemma migrateRepos_items_eq (cfg : Config) (env : Nat → ItemEnv)
    (rows : List CsvRow) (h : (filteredRows rows).length ≠ 0) :
    (migrateRepos cfg env rows).items
      = runItems cfg env (filteredRows rows).length 0 (filteredRows rows) := by
  simp [migrateRepos, h]

lemma reportRows_eq (cfg : Config) (env : Nat → ItemEnv) (rows : List CsvRow)
    (h : (filteredRows rows).length ≠ 0) :
    reportRows cfg env rows
      = (runItems cfg env (filteredRows rows).length 0 (filteredRows rows)).map
          fun it => it.reportRow := by
  simp [reportRows, migrateRepos, h]

/-- The item at zero-based position `i` of the run is the loop body applied to
the `i`-th filtered row, with iteration environment `env i` and post-increment
counter `i + 1`. -/
lemma items_getD (cfg : Config) (env : Nat → ItemEnv) (rows : List CsvRow)
    (i : Nat) (h : i < (filteredRows rows).length) :
    ((migrateRepos cfg env rows).items).getD i dummyItem
      = processItem cfg (env i) (i + 1) (filteredRows rows).length
          ((filteredRows rows).getD i dummyRow) := by
  have htot : (filteredRows rows).length ≠ 0 := by omega
  have hlen : i < (migrateRepos cfg env rows).items.length := by
    rw [migrateRepos_items_length]; exact h
  rw [List.getD_eq_get _ _ hlen, List.getD_eq_get _ _ h]
  have h3 : i < (runItems cfg env (filteredRows rows).length 0 (filteredRows rows)).length := by
    rw [runItems_length]; exact h
  have hcongr : ((migrateRepos cfg env rows).items).get ⟨i, hlen⟩
      = (runItems cfg env (filteredRows rows).length 0 (filteredRows rows)).get ⟨i, h3⟩ := by
    have heq := migrateRepos_items_eq cfg env rows htot
    exact List.get_of_eq heq _
  rw [hcongr, runItems_get cfg env (filteredRows rows).length (filteredRows rows) 0 i h h3]
  simp

lemma reportRows_getD (cfg : Config) (env : Nat → ItemEnv) (rows : List CsvRow)
    (i : Nat) (h : i < (filteredRows rows).length) :
    (reportRows cfg env rows).getD i dummyReportRow
      = (processItem cfg (env i) (i + 1) (filteredRows rows).length
          ((filteredRows rows).getD i dummyRow)).reportRow := by
  have htot : (filteredRows rows).length ≠ 0 := by omega
  have hlen : i < (reportRows cfg env rows).length := by
    rw [reportRows_length]; exact h
  have h3 : i < ((runItems cfg env (filteredRows rows).length 0 (filteredRows rows)).map
      fun it => it.reportRow).length := by
    rw [List.length_map, runItems_length]; exact h
  have h4 : i < (runItems cfg env (filteredRows rows).length 0 (filteredRows rows)).length := by
    rw [runItems_length]; exact h
  rw [List.getD_eq_get _ _ hlen]
  have hcongr : (reportRows cfg env rows).get ⟨i, hlen⟩
      = ((runItems cfg env (filteredRows rows).length 0 (filteredRows rows)).map
          fun it => it.reportRow).get ⟨i, h3⟩ :=
    List.get_of_eq (reportRows_eq cfg env rows htot) _
  rw [hcongr]
  have hmap : ((runItems cfg env (filteredRows rows).length 0 (filteredRows rows)).map
      fun it => it.reportRow).get ⟨i, h3⟩
      = ((runItems cfg env (filteredRows rows).length 0 (filteredRows rows)).get ⟨i, h4⟩).reportRow := by
    simp
  rw [hmap, runItems_get cfg env (filteredRows rows).length (filteredRows rows) 0 i h h4,
    List.getD_eq_get _ _ h]
  simp

lemma runItems_map_source (cfg : Config) (env : Nat → ItemEnv) (total : Nat) :
    ∀ (l : List CsvRow) (k : Nat),
      (runItems cfg env total k l).map (fun it => it.reportRow.sourceRepo)
        = l.map fun r => pyStrip (r.currentName.getD "") := by
  intro l
  induction l with
  | nil => intro k; simp [runItems]
  | cons row rest ih => intro k; simp [runItems, ih, processItem]

/-! ### Concrete fixtures used by witnesses and counterexamples -/

/-- A concrete configuration. -/
def cfg0 : Config := ⟨"src-org", "dst-org", "https://api.github.com"⟩

/-- Concrete clock readings. -/
def timing0 : ItemTiming := ⟨"2026-01-01 00:00:00", "2026-01-01 00:00:01", "0.5", "0.01"⟩

/-- Every item's child process exits 0 with no output; every log opens. -/
def env0 : Nat → ItemEnv := fun _ => ⟨ProcResult.finished [] 0, true, timing0⟩

/-- Every item's child process exits 1 after printing one line. -/
def envFail : Nat → ItemEnv := fun _ => ⟨ProcResult.finished ["boom"] 1, true, timing0⟩

/-- Item 0 is interrupted mid-run; later items finish with exit code 0. -/
def env1 : Nat → ItemEnv := fun i =>
  if i = 0 then ⟨ProcResult.interrupted [], true, timing0⟩
  else ⟨ProcResult.finished [] 0, true, timing0⟩

/-- Input rows: a row with a blank target, a row with a blank source (dropped
by the filter), and a row with no `NEW-NAME` column at all. -/
def rows0 : List CsvRow := [⟨some "a", some ""⟩, ⟨some "  ", some "x"⟩, ⟨some "b", none⟩]

/-- Input rows whose source identifiers are all blank or missing. -/
def rowsBlank : List CsvRow := [⟨some "   ", some "x"⟩, ⟨none, some "y"⟩]

/-- Two well-formed input rows. -/
def rows1 : List CsvRow := [⟨some "a", none⟩, ⟨some "b", none⟩]

/-! ### Claims about the orchestrator -/

/-- C4: the written report has exactly one row per input row with non-blank
source identifier (blank-source rows are excluded entirely), and the rows
appear in input order: position `i` of the report comes from position `i` of
the filtered input. Stated for runs in which no cancellation signal occurs. -/
theorem report_rows_match_filtered_input (cfg : Config) (env : Nat → ItemEnv)
    (rows : List CsvRow)
    (_hnc : ∀ i ls, (env i).proc ≠ ProcResult.interrupted ls) :
    (reportRows cfg env rows).length = (filteredRows rows).length ∧
    (reportRows cfg env rows).map (fun q => q.sourceRepo)
      = (filteredRows rows).map fun r => pyStrip (r.currentName.getD "") := by
  refine ⟨reportRows_length cfg env rows, ?_⟩
  by_cases h : (filteredRows rows).length = 0
  · have hnil : filteredRows rows = [] := List.eq_nil_of_length_eq_zero h
    simp [reportRows, migrateRepos, hnil]
  · rw [reportRows_eq cfg env rows h, List.map_map]
    exact runItems_map_source cfg env (filteredRows rows).length (filteredRows rows) 0

/-- Witness for C4: on three concrete rows (one of them blank-source), the
report has the two surviving rows, in order. -/
theorem report_rows_match_filtered_input_witness :
    ((reportRows cfg0 env0 rows0).length = (filteredRows rows0).length ∧
      (reportRows cfg0 env0 rows0).map (fun q => q.sourceRepo)
        = (filteredRows rows0).map fun r => pyStrip (r.currentName.getD "")) ∧
    (reportRows cfg0 env0 rows0).map (fun q => q.sourceRepo) = ["a", "b"] := by
  constructor
  · exact report_rows_match_filtered_input cfg0 env0 rows0
      (by intro i ls hcon; simp [env0] at hcon)
  · decide

/-- C10: when no input row has a non-blank source identifier, the orchestrator
prints the informational message and returns without writing any report. -/
theorem empty_filtered_list_writes_no_report (cfg : Config) (env : Nat → ItemEnv)
    (rows : List CsvRow) (h : filteredRows rows = []) :
    (migrateRepos cfg env rows).infoNoRepos = true ∧
    (migrateRepos cfg env rows).report = none ∧
    (migrateRepos cfg env rows).items = [] := by
  simp [migrateRepos, h]

/-- Witness for C10: two rows, one whitespace-only source and one missing
source column, produce no report at all. -/
theorem empty_filtered_list_writes_no_report_witness :
    (migrateRepos cfg0 env0 rowsBlank).infoNoRepos = true ∧
    (migrateRepos cfg0 env0 rowsBlank).report = none ∧
    (migrateRepos cfg0 env0 rowsBlank).items = [] :=
  empty_filtered_list_writes_no_report cfg0 env0 rowsBlank (by decide)

/-- C7: when an input row's target identifier is blank (strips to empty), the
corresponding report row's target equals its source. -/
theorem blank_target_defaults_to_source (cfg : Config) (env : Nat → ItemEnv)
    (rows : List CsvRow) (i : Nat) (h : i < (filteredRows rows).length)
    (hblank : pyStrip (((filteredRows rows).getD i dummyRow).newName.getD "") = "") :
    ((reportRows cfg env rows).getD i dummyReportRow).targetRepo
      = ((reportRows cfg env rows).getD i dummyReportRow).sourceRepo := by
  rw [reportRows_getD cfg env rows i h]
  simp at hblank
  simp [processItem, hblank]

/-- Witness for C7: the first surviving row of `rows0` has `NEW-NAME` equal to
`""`, and its report row's target equals its source `"a"`. -/
theorem blank_target_defaults_to_source_witness :
    (((reportRows cfg0 env0 rows0).getD 0 dummyReportRow).targetRepo
      = ((reportRows cfg0 env0 rows0).getD 0 dummyReportRow).sourceRepo) ∧
    ((reportRows cfg0 env0 rows0).getD 0 dummyReportRow).targetRepo = "a" := by
  refine ⟨blank_target_defaults_to_source cfg0 env0 rows0 0 (by decide) (by decide), ?_⟩
  decide

/-- C3: a child process exiting 0 yields a `Success` report row and no
error-log entry; a child process exiting nonzero yields a `Failed` report row
and exactly one error-log entry, and that entry carries the item's source and
target identifiers. -/
theorem exit_code_determines_status_and_error_log (cfg : Config)
    (env : Nat → ItemEnv) (rows : List CsvRow) (i : Nat)
    (h : i < (filteredRows rows).length) :
    (∀ ls, (env i).proc = ProcResult.finished ls 0 →
      (((migrateRepos cfg env rows).items).getD i dummyItem).reportRow.status = "Success" ∧
      (((migrateRepos cfg env rows).items).getD i dummyItem).errEntries = []) ∧
    (∀ ls ec, (env i).proc = ProcResult.finished ls ec → ec ≠ 0 →
      (((migrateRepos cfg env rows).items).getD i dummyItem).reportRow.status = "Failed" ∧
      (((migrateRepos cfg env rows).items).getD i dummyItem).errEntries.length = 1 ∧
      ∀ en ∈ (((migrateRepos cfg env rows).items).getD i dummyItem).errEntries,
        en.sourceRepo = (((migrateRepos cfg env rows).items).getD i dummyItem).sourceRepo ∧
        en.targetRepo = (((migrateRepos cfg env rows).items).getD i dummyItem).targetRepo) := by
  rw [items_getD cfg env rows i h]
  constructor
  · intro ls hls
    simp [processItem, runStreaming, hls]
  · intro ls ec hls hec
    have hbf : (ec == 0) = false := by simpa using hec
    simp [processItem, runStreaming, hls, hbf]

/-- Witness for C3: a child exiting 1 yields a `Failed` row and one error-log
entry. -/
theorem exit_code_determines_status_and_error_log_witness :
    (((migrateRepos cfg0 envFail rows0).items).getD 0 dummyItem).reportRow.status = "Failed" ∧
    (((migrateRepos cfg0 envFail rows0).items).getD 0 dummyItem).errEntries.length = 1 := by
  have hth := (exit_code_determines_status_and_error_log cfg0 envFail rows0 0
    (by decide)).2 ["boom"] 1 rfl (by decide)
  exact ⟨hth.1, hth.2.1⟩

/-- C8: if the per-item log file cannot be opened, the console warning is
emitted, and the item is still processed with the same report row (in
particular the same success/failure status), the same error-log entries and
the same progress line as when the log opens. -/
theorem log_open_failure_is_harmless (cfg : Config) (pr : ProcResult)
    (t : ItemTiming) (completedAfter total : Nat) (row : CsvRow) :
    (processItem cfg ⟨pr, false, t⟩ completedAfter total row).stream.warnedLogOpen = true ∧
    (processItem cfg ⟨pr, false, t⟩ completedAfter total row).stream.success
      = (processItem cfg ⟨pr, true, t⟩ completedAfter total row).stream.success ∧
    (processItem cfg ⟨pr, false, t⟩ completedAfter total row).reportRow
      = (processItem cfg ⟨pr, true, t⟩ completedAfter total row).reportRow ∧
    (processItem cfg ⟨pr, false, t⟩ completedAfter total row).errEntries
      = (processItem cfg ⟨pr, true, t⟩ completedAfter total row).errEntries ∧
    (processItem cfg ⟨pr, false, t⟩ completedAfter total row).progressLine
      = (processItem cfg ⟨pr, true, t⟩ completedAfter total row).progressLine := by
  cases pr <;> simp [processItem, runStreaming]

/-- C2 counterexample: for a successfully migrated item the code prints
`[Completed] ...`, not `[Success] ...`: at a concrete input where everything
else of the claimed shape is fixed, the printed line matches neither the
`Success` nor the `Failed` form, refuting "the status label is exactly one of
`Success` or `Failed`". -/
theorem progress_label_claim_counterexample :
    (((migrateRepos cfg0 env0 rows0).items).getD 0 dummyItem).progressLine
      = "[Completed] a -> a (1/2) in 0.5s" ∧
    (((migrateRepos cfg0 env0 rows0).items).getD 0 dummyItem).progressLine
      ≠ "[Success] a -> a (1/2) in 0.5s" ∧
    (((migrateRepos cfg0 env0 rows0).items).getD 0 dummyItem).progressLine
      ≠ "[Failed] a -> a (1/2) in 0.5s" := by
  refine ⟨?_, ?_, ?_⟩ <;> decide

/-- C2 (amended): every processed item's one-line progress summary has the
form `[<status>] <source> -> <target> (<completedCount>/<total>) in
<seconds>s`, where the status label is exactly one of `Completed` or
`Failed`, the completed count is the item's one-based position and the total
is the number of filtered rows. -/
theorem progress_line_format (cfg : Config) (env : Nat → ItemEnv)
    (rows : List CsvRow) (i : Nat) (h : i < (filteredRows rows).length) :
    (((migrateRepos cfg env rows).items).getD i dummyItem).progressLine
      = "[" ++ "Completed" ++ "] " ++
        (((migrateRepos cfg env rows).items).getD i dummyItem).sourceRepo ++ " -> " ++
        (((migrateRepos cfg env rows).items).getD i dummyItem).targetRepo ++
        " (" ++ toString (i + 1) ++ "/" ++ toString (filteredRows rows).length ++
        ") in " ++ (env i).timing.durSecondsStr ++ "s" ∨
    (((migrateRepos cfg env rows).items).getD i dummyItem).progressLine
      = "[" ++ "Failed" ++ "] " ++
        (((migrateRepos cfg env rows).items).getD i dummyItem).sourceRepo ++ " -> " ++
        (((migrateRepos cfg env rows).items).getD i dummyItem).targetRepo ++
        " (" ++ toString (i + 1) ++ "/" ++ toString (filteredRows rows).length ++
        ") in " ++ (env i).timing.durSecondsStr ++ "s" := by
  rw [items_getD cfg env rows i h]
  by_cases hsucc : (processItem cfg (env i) (i + 1) (filteredRows rows).length
      ((filteredRows rows).getD i dummyRow)).stream.success = true
  · left
    simp only [processItem] at hsucc ⊢
    simp at hsucc
    simp [hsucc]
  · right
    have hf : (processItem cfg (env i) (i + 1) (filteredRows rows).length
        ((filteredRows rows).getD i dummyRow)).stream.success = false := by
      simpa using hsucc
    simp only [processItem] at hf ⊢
    simp at hf
    simp [hf]

/-- Witness for C2 (amended) at a concrete successful item. -/
theorem progress_line_format_witness :
    ((((migrateRepos cfg0 env0 rows0).items).getD 0 dummyItem).progressLine
      = "[" ++ "Completed" ++ "] " ++
        (((migrateRepos cfg0 env0 rows0).items).getD 0 dummyItem).sourceRepo ++ " -> " ++
        (((migrateRepos cfg0 env0 rows0).items).getD 0 dummyItem).targetRepo ++
        " (" ++ toString (0 + 1) ++ "/" ++ toString (filteredRows rows0).length ++
        ") in " ++ (env0 0).timing.durSecondsStr ++ "s" ∨
    (((migrateRepos cfg0 env0 rows0).items).getD 0 dummyItem).progressLine
      = "[" ++ "Failed" ++ "] " ++
        (((migrateRepos cfg0 env0 rows0).items).getD 0 dummyItem).sourceRepo ++ " -> " ++
        (((migrateRepos cfg0 env0 rows0).items).getD 0 dummyItem).targetRepo ++
        " (" ++ toString (0 + 1) ++ "/" ++ toString (filteredRows rows0).length ++
        ") in " ++ (env0 0).timing.durSecondsStr ++ "s") ∧
    (((migrateRepos cfg0 env0 rows0).items).getD 0 dummyItem).progressLine
      = "[Completed] a -> a (1/2) in 0.5s" := by
  refine ⟨progress_line_format cfg0 env0 rows0 0 (by decide), ?_⟩
  decide

/-- C1 counterexample: with two filtered rows and a cancellation signal
observed during item 0's process execution, the claim predicts a report with
exactly one row (item 1 never started); the code instead swallows the
`KeyboardInterrupt` inside `run_streaming`, continues the loop, starts item 1,
and writes a two-row report whose second row is `Success`. -/
theorem cancellation_claim_counterexample :
    (env1 0).proc = ProcResult.interrupted [] ∧
    (reportRows cfg0 env1 rows1).map (fun q => (q.sourceRepo, q.status))
      = [("a", "Failed"), ("b", "Success")] ∧
    (reportRows cfg0 env1 rows1).length ≠ 1 := by
  refine ⟨rfl, ?_, ?_⟩ <;> decide

/-- C1 (amended): if a cancellation signal is observed during item `i`'s
process execution, item `i`'s outcome is recorded marked `Failed`, but the
loop is not stopped: the remaining items are still processed and the report
is written with one row for every filtered input row. -/
theorem cancellation_marks_failed_but_run_continues (cfg : Config)
    (env : Nat → ItemEnv) (rows : List CsvRow) (i : Nat) (ls : List String)
    (h : i < (filteredRows rows).length)
    (hint : (env i).proc = ProcResult.interrupted ls) :
    ((reportRows cfg env rows).getD i dummyReportRow).status = "Failed" ∧
    (reportRows cfg env rows).length = (filteredRows rows).length := by
  refine ⟨?_, reportRows_length cfg env rows⟩
  rw [reportRows_getD cfg env rows i h]
  simp [processItem, runStreaming, hint]

/-- Witness for C1 (amended) at the concrete interrupted run. -/
theorem cancellation_marks_failed_but_run_continues_witness :
    ((reportRows cfg0 env1 rows1).getD 0 dummyReportRow).status = "Failed" ∧
    (reportRows cfg0 env1 rows1).length = (filteredRows rows1).length :=
  cancellation_marks_failed_but_run_continues cfg0 env1 rows1 0 [] (by decide) rfl

end Migrate
